import Mathlib

/-!
Shallow embedding of the BookFetcher page-selection pipeline
(`playwright_book_extractor.py`): the OCR cleaner `clean_ocr_text`, the
OCR worker `extract_text_from_image_async`, the classifier boundary
`analyze_book_with_gpt4`, the early-stop capture loop of
`extract_google_books_pages`, and the session finalization.

Text is modelled as `List Char`.  Python's float comparison
`readable_chars / len(line) < 0.7` is modelled by the exact rational
comparison (equivalently `10 * readable < 7 * len`); the two agree for
every realistic line length.  External effects (the OCR engine, the
HTTP request to the language model, JSON parsing) are modelled by
passing their outcome in as an argument (`Except` for fallible ones).
-/

/-- Python whitespace for `str.strip()` / `\s`, restricted to ASCII. -/
def isPySpace (c : Char) : Bool :=
  c == ' ' || c == '\t' || c == '\n' || c == '\r' || c == '\x0b' || c == '\x0c'

/-- Left part of Python `str.strip()`. -/
def stripLeft (l : List Char) : List Char := l.dropWhile isPySpace

/-- Right part of Python `str.strip()` (recursive form). -/
def stripRight : List Char → List Char
  | [] => []
  | c :: cs =>
    let r := stripRight cs
    if r.isEmpty then (if isPySpace c then [] else [c]) else c :: r

/-- Python `str.strip()`: drop leading and trailing whitespace. -/
def pyStrip (l : List Char) : List Char := stripRight (stripLeft l)

/-- Python `text.split('\n')`. -/
def splitNl : List Char → List (List Char)
  | [] => [[]]
  | c :: cs =>
    match splitNl cs with
    | [] => [[]]
    | r :: rs => if c = '\n' then [] :: r :: rs else (c :: r) :: rs

/-- Python `'\n'.join(lines)`. -/
def joinNl : List (List Char) → List Char
  | [] => []
  | [l] => l
  | l :: ls => l ++ '\n' :: joinNl ls

/-- Does `sub` occur at the head of `l`? -/
def leadMatch : List Char → List Char → Bool
  | [], _ => true
  | _ :: _, [] => false
  | a :: as, b :: bs => a == b && leadMatch as bs

/-- Python `sub in line`: substring test. -/
def hasSub (sub : List Char) : List Char → Bool
  | [] => leadMatch sub []
  | c :: cs => leadMatch sub (c :: cs) || hasSub sub cs

/-- Character class of the regex `[A-Za-z0-9+/=]` (base64-looking lines). -/
def base64Char (c : Char) : Bool :=
  c.isAlpha || c.isDigit || c == '+' || c == '/' || c == '='

/-- Python `c.isalnum() or c.isspace()` (ASCII model). -/
def readableChar (c : Char) : Bool := c.isAlphanum || isPySpace c

/-- Character class of the regex `[0-9\s\-_+=.,;:!@#$%^&*()]`. -/
def numSymChar (c : Char) : Bool :=
  c.isDigit || isPySpace c ||
    c == '-' || c == '_' || c == '+' || c == '=' || c == '.' || c == ',' ||
    c == ';' || c == ':' || c == '!' || c == '@' || c == '#' || c == '$' ||
    c == '%' || c == '^' || c == '&' || c == '*' || c == '(' || c == ')'

/-- The fixed watermark substrings `google_artifacts` from the source. -/
def googleArtifacts : List (List Char) :=
  ["ogle Books".toList,
   "nd enjoy eslr access to your favor estos".toList,
   "Powered by Google Books API".toList,
   "This downloads and extracts text from Google Books PDF previews".toList]

/-- Count of readable characters in a line
(`sum(1 for c in line if c.isalnum() or c.isspace())`). -/
def countReadable (l : List Char) : Nat := (l.filter readableChar).length

/-- One iteration of the `for line in lines` loop of `clean_ocr_text`:
returns the stripped line if it is kept, `none` if a rule drops it. -/
def keepLineSrc (line : List Char) : Option (List Char) :=
  let l := pyStrip line
  if l.isEmpty then none
  else if 20 ≤ l.length && l.all base64Char then none
  else if 10 < l.length && decide (countReadable l * 10 < l.length * 7) then none
  else if l.length < 3 then none
  else if 5 ≤ l.length && l.all numSymChar then none
  else if googleArtifacts.any (fun a => hasSub a l) then none
  else some l

/-- `clean_ocr_text` from the source: split on newlines, filter lines by
the rules, rejoin with newlines. -/
def clean_ocr_text (t : List Char) : List Char :=
  joinNl ((splitNl t).filterMap keepLineSrc)

/-- Spec-side line rule, written from the claim text: a line is dropped on
the first matching rule of (1) empty after trimming, (2) 20+ chars from
letters / digits / `+` / `/` / `=`, (3) longer than 10 with readable
fraction below 0.7, (4) shorter than 3, (5) 5+ chars of digits /
whitespace / fixed punctuation, (6) containing a vendor watermark. -/
def keepLineSpec (line : List Char) : Option (List Char) :=
  let l := pyStrip line
  if l = [] then none
  else if 20 ≤ l.length ∧ ∀ c ∈ l, base64Char c then none
  else if 10 < l.length ∧ ((countReadable l : ℚ) / (l.length : ℚ) < 7 / 10) then none
  else if l.length < 3 then none
  else if 5 ≤ l.length ∧ ∀ c ∈ l, numSymChar c then none
  else if ∃ a ∈ googleArtifacts, hasSub a l then none
  else some l

/-- Spec-side cleaner, written from the claim text: surviving lines
rejoined with newline separators, outer whitespace trimmed. -/
def cleanSpec (t : List Char) : List Char :=
  pyStrip (joinNl ((splitNl t).filterMap keepLineSpec))

/-- The per-page dict built by `extract_text_from_image_async`. -/
structure PageText where
  page_number : Nat
  filename : String
  text : List Char
  text_length : Nat
  deriving Repr, DecidableEq

/-- `extract_text_from_image_async`: runs OCR for the page image and
packages the cleaned text.  The OCR engine is external; its outcome is
passed as `ocr` (`.error` = the OCR call raised, `.ok raw` = it
returned `raw`).  `avail` is `TESSERACT_AVAILABLE`.  `run_ocr` catches
every exception and returns the empty string. -/
def extract_text_from_image_async (page_num : Nat) (avail : Bool)
    (ocr : Except String (List Char)) : PageText :=
  let filename := "page_" ++ toString page_num ++ ".png"
  if avail = false then
    { page_number := page_num, filename := filename, text := [], text_length := 0 }
  else
    let text :=
      match ocr with
      | .error _ => []
      | .ok raw => pyStrip (clean_ocr_text raw)
    { page_number := page_num, filename := filename, text := text,
      text_length := text.length }

/-- The dict returned by `analyze_book_with_gpt4`. -/
structure GptVerdict where
  classification : String
  content_pages : List Int
  selected_page : Option Int
  reasoning : String
  confidence : String
  deriving Repr, DecidableEq

/-- The JSON object parsed from the model response (lines 159-161):
each field may be absent; `selected_page` may also be present as null. -/
structure JsonVerdict where
  classification : Option String
  content_pages : Option (List Int)
  selected_page : Option (Option Int)
  reasoning : Option String
  deriving Repr, DecidableEq

/-- `analyze_book_with_gpt4`: the request, fence stripping and JSON
parsing are external; `outcome` is their combined result (`.error e` =
the request failed, the JSON was malformed, or any other exception `e`
was raised; `.ok r` = a JSON object `r` was parsed).  The `.ok` branch
is the `result.get(...)` defaulting of lines 163-169, the `.error`
branch is the `except` handler of lines 171-179. -/
def analyze_book_with_gpt4 (outcome : Except String JsonVerdict) : GptVerdict :=
  match outcome with
  | .error e =>
    { classification := "unknown", content_pages := [], selected_page := none,
      reasoning := "Error: " ++ e, confidence := "low" }
  | .ok r =>
    { classification := r.classification.getD "unknown",
      content_pages := r.content_pages.getD [],
      selected_page := r.selected_page.getD none,
      reasoning := r.reasoning.getD "",
      confidence := "high" }

/-- The local target-page rule of the early-stop check (lines 356-361 and
465-470): `fiction` with two or more content pages takes the second,
`non-fiction` with at least one takes the first, otherwise no target. -/
def computeTargetPage (classification : String) (content_pages : List Int) :
    Option Int :=
  if classification = "fiction" ∧ 2 ≤ content_pages.length then content_pages[1]?
  else if classification = "non-fiction" ∧ 1 ≤ content_pages.length then
    content_pages[0]?
  else none

/-- Insertion step for `page_contents.sort(key=lambda x: x['page_number'])`. -/
def insertByPage (p : PageText) : List PageText → List PageText
  | [] => [p]
  | q :: qs =>
    if p.page_number ≤ q.page_number then p :: q :: qs else q :: insertByPage p qs

/-- `page_contents.sort(key=lambda x: x['page_number'])`. -/
def sortByPage (l : List PageText) : List PageText := l.foldr insertByPage []

/-- The `page_contents` list built at the checkpoint after capturing page
`page_num`: the results of the OCR tasks dispatched so far (pages
`1 .. page_num`; every task returns a dict, so the `isinstance` filter
keeps all of them), sorted by `page_number`.  `ocrOf n` is the OCR
engine outcome for page `n`. -/
def checkpointContents (avail : Bool) (ocrOf : Nat → Except String (List Char))
    (page_num : Nat) : List PageText :=
  sortByPage ((List.range' 1 page_num).map
    (fun n => extract_text_from_image_async n avail (ocrOf n)))

/-- The early-stop decision taken after capturing page `page_num`
(lines 336-365 / 445-474): at every checkpoint (`page_num >= 3 and
page_num % 3 == 0`) with at least 3 OCR results, ask the classifier
(`classify` abstracts `analyze_book_with_gpt4` composed with the model
call) and stop when `target_page` is truthy (nonzero) and
`target_page <= page_num`. -/
def stopCheck (classify : List PageText → GptVerdict)
    (avail : Bool) (ocrOf : Nat → Except String (List Char))
    (page_num : Nat) : Bool :=
  if 3 ≤ page_num ∧ page_num % 3 = 0 then
    let pcs := checkpointContents avail ocrOf page_num
    if 3 ≤ pcs.length then
      let v := classify pcs
      match computeTargetPage v.classification v.content_pages with
      | none => false
      | some tp => tp ≠ 0 ∧ tp ≤ (page_num : Int)
    else false
  else false

/-- The capture loop body over the remaining page numbers: capture the
page, then run the early-stop check and `break` when it fires. -/
def runCapture (classify : List PageText → GptVerdict)
    (avail : Bool) (ocrOf : Nat → Except String (List Char)) :
    List Nat → List Nat
  | [] => []
  | p :: rest =>
    if stopCheck classify avail ocrOf p then [p]
    else p :: runCapture classify avail ocrOf rest

/-- The page numbers captured by `for page_num in range(1, max_pages + 1)`
with the early-stop `break`. -/
def capturedPages (classify : List PageText → GptVerdict)
    (avail : Bool) (ocrOf : Nat → Except String (List Char))
    (max_pages : Nat) : List Nat :=
  runCapture classify avail ocrOf (List.range' 1 max_pages)

/-- The `gpt4_analysis` sub-dict of the session result (lines 611-620). -/
structure GptAnalysis where
  total_pages : Nat
  classification : String
  content_pages : List Int
  selected_page_number : Option Int
  reasoning : String
  selected_page_content : Option (List Char)
  selected_page_filename : Option String
  all_pages : List PageText
  deriving Repr, DecidableEq

/-- The session result dict: the success shape (lines 604-621) carries a
`gpt4_analysis`; the failure shape (lines 534-538) carries an error. -/
structure SessionResult where
  success : Bool
  error : Option String
  pages_extracted : Nat
  gpt4_analysis : Option GptAnalysis
  deriving Repr, DecidableEq

/-- The `except` result of lines 532-538: total pipeline failure. -/
def errorResult (e : String) : SessionResult :=
  { success := false, error := some e, pages_extracted := 0, gpt4_analysis := none }

/-- Final `page_contents` (lines 555-572): OCR task outcomes gathered with
`return_exceptions=True`, exceptions filtered out, sorted by page number. -/
def finalContents (results : List (Except String PageText)) : List PageText :=
  sortByPage (results.filterMap (fun r =>
    match r with
    | .ok d => some d
    | .error _ => none))

/-- The default verdict dict of line 578, kept when `page_contents` is
empty (`.get` calls then default the remaining fields). -/
def defaultGpt : GptVerdict :=
  { classification := "unknown", content_pages := [], selected_page := none,
    reasoning := "", confidence := "low" }

/-- The verdict used by the finalization: `analyze_book_with_gpt4` (here
the abstract `classify`) when `page_contents` is non-empty, the default
dict otherwise (lines 577-588). -/
def finalGpt (results : List (Except String PageText))
    (classify : List PageText → GptVerdict) : GptVerdict :=
  let pcs := finalContents results
  if pcs.isEmpty then defaultGpt else classify pcs

/-- Lines 597-602: `if selected_page_num and 1 <= selected_page_num <=
len(page_contents): selected_page = page_contents[selected_page_num - 1]`
— a positional lookup into the sorted list. -/
def selectedPageOf (pcs : List PageText) (spn : Option Int) : Option PageText :=
  match spn with
  | none => none
  | some n =>
    if n ≠ 0 ∧ 1 ≤ n ∧ n ≤ (pcs.length : Int) then pcs[(n - 1).toNat]?
    else none

/-- The session finalization (lines 543-625): gather OCR outcomes, sort,
classify, resolve the selected page, and build the success result. -/
def finalizeSession (actual : Nat) (results : List (Except String PageText))
    (classify : List PageText → GptVerdict) : SessionResult :=
  let pcs := finalContents results
  let gpt := finalGpt results classify
  let sel := selectedPageOf pcs gpt.selected_page
  { success := true, error := none, pages_extracted := actual,
    gpt4_analysis := some
      { total_pages := pcs.length,
        classification := gpt.classification,
        content_pages := gpt.content_pages,
        selected_page_number := gpt.selected_page,
        reasoning := gpt.reasoning,
        selected_page_content := sel.map PageText.text,
        selected_page_filename := sel.map PageText.filename,
        all_pages := pcs } }

/-- Line 213: `screenshots_dir = os.path.abspath("temp/screenshots")` —
a fixed directory, identical for every session of one working directory. -/
def screenshotsDir : String := "temp/screenshots"

/-- Lines 318 / 406: the image path written for page `page_num`.  The
session inputs (`preview_url`, `book_title`, `book_author`) are the
arguments of `extract_google_books_pages`; none of them reaches the
path. -/
def sessionScreenshotPath (preview_url book_title book_author : String)
    (page_num : Nat) : String :=
  screenshotsDir ++ "/page_" ++ toString page_num ++ ".png"

/-! ### Concrete instantiations used to evaluate the embedding -/

/-- OCR engine that always succeeds with empty raw text. -/
def zeroOcr : Nat → Except String (List Char) := fun _ => Except.ok []

/-- Stub classifier whose verdict names content page 0 for a non-fiction
book (a page number Python treats as falsy in the early-stop test). -/
def zeroTargetClassify : List PageText → GptVerdict := fun _ =>
  { classification := "non-fiction", content_pages := [0], selected_page := none,
    reasoning := "", confidence := "high" }

/-- Stub classifier whose verdict makes the early-stop rule fire at the
page-3 checkpoint (fiction, second content page = 2). -/
def secondPageClassify : List PageText → GptVerdict := fun _ =>
  { classification := "fiction", content_pages := [1, 2], selected_page := none,
    reasoning := "", confidence := "high" }

/-- A sorted `page_contents` list with a gap: page 2 is missing because
its capture failed, so positions and page numbers disagree. -/
def gapContents : List PageText :=
  [{ page_number := 1, filename := "page_1.png",
     text := "first page words".toList, text_length := 16 },
   { page_number := 3, filename := "page_3.png",
     text := "third page words".toList, text_length := 16 },
   { page_number := 4, filename := "page_4.png",
     text := "fourth page words".toList, text_length := 17 }]

/-- Stub final verdict selecting page number 3 on the gapped list. -/
def gapClassify : List PageText → GptVerdict := fun _ =>
  { classification := "fiction", content_pages := [2, 3], selected_page := some 3,
    reasoning := "", confidence := "high" }

/-! ### Helper lemmas about stripping, splitting and joining -/

theorem dropWhile_self_idem {α : Type} (p : α → Bool) (l : List α) :
    List.dropWhile p (List.dropWhile p l) = List.dropWhile p l := by
  induction l with
  | nil => rfl
  | cons c cs ih =>
    by_cases h : p c
    · simp [List.dropWhile_cons, h, ih]
    · simp [List.dropWhile_cons, h]

theorem stripLeft_idem (l : List Char) : stripLeft (stripLeft l) = stripLeft l :=
  dropWhile_self_idem isPySpace l

theorem stripRight_idem (l : List Char) : stripRight (stripRight l) = stripRight l := by
  induction l with
  | nil => rfl
  | cons c cs ih =>
    by_cases h : (stripRight cs).isEmpty
    · by_cases hc : isPySpace c
      · simp [stripRight, h, hc]
      · simp [stripRight, h, hc]
    · have h2 : stripRight (c :: cs) = c :: stripRight cs := by simp [stripRight, h]
      rw [h2]
      simp [stripRight, ih, h]

theorem stripRight_cons_shape (c : Char) (cs : List Char) :
    stripRight (c :: cs) = [] ∨ ∃ t, stripRight (c :: cs) = c :: t := by
  by_cases h : (stripRight cs).isEmpty
  · by_cases hc : isPySpace c
    · left; simp [stripRight, h, hc]
    · right; exact ⟨[], by simp [stripRight, h, hc]⟩
  · right; exact ⟨stripRight cs, by simp [stripRight, h]⟩

theorem head_not_space_of_stripLeft_fix {c : Char} {cs : List Char}
    (h : stripLeft (c :: cs) = c :: cs) : isPySpace c = false := by
  by_cases hc : isPySpace c
  · exfalso
    simp [stripLeft, List.dropWhile_cons, hc] at h
    have hle := (List.dropWhile_sublist (l := cs) isPySpace).length_le
    rw [h] at hle
    simp at hle
  · simpa using hc

theorem stripLeft_stripRight_of_fix {x : List Char} (h : stripLeft x = x) :
    stripLeft (stripRight x) = stripRight x := by
  cases x with
  | nil => rfl
  | cons c cs =>
    have hc : isPySpace c = false := head_not_space_of_stripLeft_fix h
    rcases stripRight_cons_shape c cs with h0 | ⟨t, ht⟩
    · rw [h0]; rfl
    · rw [ht]; simp [stripLeft, List.dropWhile_cons, hc]

theorem stripLeft_pyStrip (x : List Char) : stripLeft (pyStrip x) = pyStrip x :=
  stripLeft_stripRight_of_fix (stripLeft_idem x)

theorem stripRight_pyStrip (x : List Char) : stripRight (pyStrip x) = pyStrip x :=
  stripRight_idem (stripLeft x)

theorem pyStrip_idem (x : List Char) : pyStrip (pyStrip x) = pyStrip x := by
  conv_lhs => rw [pyStrip, stripLeft_pyStrip, stripRight_pyStrip]

theorem mem_of_mem_stripRight {c : Char} : ∀ {l : List Char}, c ∈ stripRight l → c ∈ l
  | [], h => by simpa [stripRight] using h
  | a :: as, h => by
    by_cases he : (stripRight as).isEmpty
    · by_cases ha : isPySpace a
      · simp [stripRight, he, ha] at h
      · simp [stripRight, he, ha] at h
        simp [h]
    · simp only [stripRight, he, if_neg] at h
      rcases List.mem_cons.mp (by simpa [he] using h) with h | h
      · simp [h]
      · exact List.mem_cons_of_mem _ (mem_of_mem_stripRight h)

theorem mem_of_mem_pyStrip {c : Char} {l : List Char} (h : c ∈ pyStrip l) : c ∈ l :=
  (List.dropWhile_sublist isPySpace).subset (mem_of_mem_stripRight h)

theorem splitNl_ne_nil (t : List Char) : splitNl t ≠ [] := by
  induction t with
  | nil => simp [splitNl]
  | cons c cs ih =>
    unfold splitNl
    cases h : splitNl cs with
    | nil => simp
    | cons r rs => by_cases hc : c = '\n' <;> simp [hc]

theorem nl_not_mem_splitNl (t : List Char) : ∀ l ∈ splitNl t, '\n' ∉ l := by
  induction t with
  | nil =>
    intro l hl
    simp [splitNl] at hl
    simp [hl]
  | cons c cs ih =>
    intro l hl
    unfold splitNl at hl
    cases h : splitNl cs with
    | nil => exact absurd h (splitNl_ne_nil cs)
    | cons r rs =>
      rw [h] at hl
      by_cases hc : c = '\n'
      · simp only [hc, if_pos rfl] at hl
        rcases List.mem_cons.mp hl with h1 | h1
        · simp [h1]
        · exact ih l (h ▸ h1)
      · simp only [if_neg hc] at hl
        rcases List.mem_cons.mp hl with h1 | h1
        · subst h1
          intro hmem
          rcases List.mem_cons.mp hmem with h2 | h2
          · exact hc h2.symm
          · exact ih r (h ▸ List.mem_cons_self r rs) h2
        · exact ih l (h ▸ List.mem_cons_of_mem r h1)

theorem splitNl_of_no_nl {l : List Char} (h : '\n' ∉ l) : splitNl l = [l] := by
  induction l with
  | nil => rfl
  | cons c cs ih =>
    have hc : ¬(c = '\n') := fun hc => h (hc ▸ List.mem_cons_self c cs)
    have hcs : '\n' ∉ cs := fun hm => h (List.mem_cons_of_mem c hm)
    unfold splitNl
    rw [ih hcs]
    simp [hc]

theorem splitNl_append_nl {a : List Char} (b : List Char) (h : '\n' ∉ a) :
    splitNl (a ++ '\n' :: b) = a :: splitNl b := by
  induction a with
  | nil =>
    cases hb : splitNl b with
    | nil => exact absurd hb (splitNl_ne_nil b)
    | cons r rs =>
      show splitNl ('\n' :: b) = [] :: r :: rs
      rw [splitNl, hb]
      simp
  | cons c as ih =>
    have hc : ¬(c = '\n') := fun hc => h (hc ▸ List.mem_cons_self c as)
    have has : '\n' ∉ as := fun hm => h (List.mem_cons_of_mem c hm)
    show splitNl (c :: (as ++ '\n' :: b)) = (c :: as) :: splitNl b
    rw [splitNl, ih has]
    simp [hc]

theorem splitNl_joinNl : ∀ ls : List (List Char), ls ≠ [] →
    (∀ l ∈ ls, '\n' ∉ l) → splitNl (joinNl ls) = ls
  | [], h, _ => absurd rfl h
  | [l], _, hnl => by
    simpa [joinNl] using splitNl_of_no_nl (hnl l (List.mem_cons_self l []))
  | l :: l₂ :: rest, _, hnl => by
    show splitNl (l ++ '\n' :: joinNl (l₂ :: rest)) = l :: l₂ :: rest
    rw [splitNl_append_nl _ (hnl l (List.mem_cons_self _ _))]
    rw [splitNl_joinNl (l₂ :: rest) (by simp)
      (fun x hx => hnl x (List.mem_cons_of_mem l hx))]

theorem filterMap_of_self {α : Type} (f : α → Option α) :
    ∀ ls : List α, (∀ l ∈ ls, f l = some l) → ls.filterMap f = ls
  | [], _ => rfl
  | l :: ls, h => by
    rw [List.filterMap_cons, h l (List.mem_cons_self l ls)]
    rw [filterMap_of_self f ls (fun x hx => h x (List.mem_cons_of_mem l hx))]

theorem stripRight_append (a b : List Char) :
    stripRight (a ++ b) =
      if (stripRight b).isEmpty then stripRight a else a ++ stripRight b := by
  induction a with
  | nil =>
    by_cases h : (stripRight b).isEmpty
    · simp [h, List.isEmpty_iff.mp h, stripRight]
    · simp [h]
  | cons c as ih =>
    by_cases h : (stripRight b).isEmpty
    · show stripRight (c :: (as ++ b)) = _
      simp only [stripRight, ih, h, if_pos]
    · have hbne : stripRight b ≠ [] := fun he => by simp [he] at h
      have hne : (as ++ stripRight b).isEmpty = false := by
        simp [List.isEmpty_iff, hbne]
      have hr : stripRight (as ++ b) = as ++ stripRight b := by rw [ih, if_neg h]
      have hstep : stripRight (c :: (as ++ b)) = c :: (as ++ stripRight b) := by
        simp only [stripRight, hr, hne]
        simp
      show stripRight (c :: (as ++ b)) = _
      rw [hstep, if_neg h]
      simp

theorem joinNl_cons_ne_nil {l : List Char} (rest : List (List Char)) (h : l ≠ []) :
    joinNl (l :: rest) ≠ [] := by
  cases rest with
  | nil => simpa [joinNl] using h
  | cons r rs => simp [joinNl]

theorem stripLeft_joinNl : ∀ ls : List (List Char),
    (∀ l ∈ ls, l ≠ [] ∧ stripLeft l = l) → stripLeft (joinNl ls) = joinNl ls := by
  intro ls h
  cases ls with
  | nil => rfl
  | cons l rest =>
    obtain ⟨hne, hfix⟩ := h l (List.mem_cons_self l rest)
    cases l with
    | nil => exact absurd rfl hne
    | cons c cs =>
      have hc : isPySpace c = false := head_not_space_of_stripLeft_fix hfix
      cases rest with
      | nil => simpa [joinNl] using hfix
      | cons l₂ rs =>
        show stripLeft ((c :: cs) ++ '\n' :: joinNl (l₂ :: rs)) = _
        simp [stripLeft, List.dropWhile_cons, hc, joinNl]

theorem stripRight_joinNl : ∀ ls : List (List Char),
    (∀ l ∈ ls, l ≠ [] ∧ stripRight l = l) → stripRight (joinNl ls) = joinNl ls := by
  intro ls h
  induction ls with
  | nil => rfl
  | cons l rest ih =>
    cases rest with
    | nil => simpa [joinNl] using (h l (List.mem_cons_self l [])).2
    | cons l₂ rs =>
      have hJ : stripRight (joinNl (l₂ :: rs)) = joinNl (l₂ :: rs) :=
        ih (fun x hx => h x (List.mem_cons_of_mem l hx))
      have hJne : joinNl (l₂ :: rs) ≠ [] :=
        joinNl_cons_ne_nil rs (h l₂ (List.mem_cons_of_mem l (List.mem_cons_self l₂ rs))).1
      show stripRight (l ++ '\n' :: joinNl (l₂ :: rs)) = l ++ '\n' :: joinNl (l₂ :: rs)
      rw [stripRight_append]
      have hmid : stripRight ('\n' :: joinNl (l₂ :: rs)) = '\n' :: joinNl (l₂ :: rs) := by
        simp [stripRight, hJ, List.isEmpty_iff, hJne]
      rw [hmid]
      simp [List.isEmpty_iff, hJne]

theorem pyStrip_joinNl {ls : List (List Char)}
    (h : ∀ l ∈ ls, l ≠ [] ∧ stripLeft l = l ∧ stripRight l = l) :
    pyStrip (joinNl ls) = joinNl ls := by
  rw [pyStrip, stripLeft_joinNl ls (fun l hl => ⟨(h l hl).1, (h l hl).2.1⟩),
    stripRight_joinNl ls (fun l hl => ⟨(h l hl).1, (h l hl).2.2⟩)]

/-! ### Helper lemmas about the line rules -/

theorem keepLineSrc_some {line l : List Char} (h : keepLineSrc line = some l) :
    l = pyStrip line ∧ l ≠ [] := by
  simp only [keepLineSrc] at h
  split_ifs at h with h1 h2 h3 h4 h5 h6
  all_goals first
    | (have hval : pyStrip line = l := Option.some_injective _ h
       subst hval
       exact ⟨rfl, fun hnil => h1 (by simp [hnil])⟩)
    | simp at h

theorem keepLineSrc_pyStrip (line : List Char) :
    keepLineSrc (pyStrip line) = keepLineSrc line := by
  simp only [keepLineSrc, pyStrip_idem]

theorem keepLineSrc_kept_again {line l : List Char} (h : keepLineSrc line = some l) :
    keepLineSrc l = some l := by
  obtain ⟨hl, _⟩ := keepLineSrc_some h
  rw [hl, keepLineSrc_pyStrip, h, hl]

/-- The exact-rational readability test of the claim agrees with the
integer form used in the embedding of the source. -/
theorem rule3_iff (l : List Char) :
    (10 < l.length ∧ (countReadable l : ℚ) / (l.length : ℚ) < 7 / 10) ↔
      (10 < l.length ∧ countReadable l * 10 < l.length * 7) := by
  constructor <;> rintro ⟨hlen, hx⟩ <;> refine ⟨hlen, ?_⟩
  · have hpos : (0 : ℚ) < (l.length : ℚ) := by exact_mod_cast Nat.lt_of_lt_of_le (by norm_num) (Nat.le_of_lt hlen)
    rw [div_lt_div_iff hpos (by norm_num : (0 : ℚ) < 10)] at hx
    have hq : (countReadable l : ℚ) * 10 < (l.length : ℚ) * 7 := by linarith
    exact_mod_cast hq
  · have hpos : (0 : ℚ) < (l.length : ℚ) := by exact_mod_cast Nat.lt_of_lt_of_le (by norm_num) (Nat.le_of_lt hlen)
    rw [div_lt_div_iff hpos (by norm_num : (0 : ℚ) < 10)]
    have hq : (countReadable l : ℚ) * 10 < (l.length : ℚ) * 7 := by exact_mod_cast hx
    linarith

/-- The claim-side line rule and the source-side line rule agree. -/
theorem keepLineSpec_eq_src (line : List Char) :
    keepLineSpec line = keepLineSrc line := by
  simp only [keepLineSpec, keepLineSrc, Bool.and_eq_true, decide_eq_true_eq,
    List.all_eq_true, List.any_eq_true, List.isEmpty_iff, rule3_iff]

/-- Every line surviving the rules is a nonempty fixed point of both
strips and is newline-free when the input line was. -/
theorem survivor_facts {line l : List Char} (h : keepLineSrc line = some l) :
    l ≠ [] ∧ stripLeft l = l ∧ stripRight l = l ∧ ('\n' ∉ line → '\n' ∉ l) := by
  obtain ⟨hval, hne⟩ := keepLineSrc_some h
  subst hval
  exact ⟨hne, stripLeft_pyStrip line, stripRight_pyStrip line,
    fun hnl hmem => hnl (mem_of_mem_pyStrip hmem)⟩

/-- The joined output of the cleaner is a fixed point of `pyStrip`. -/
theorem pyStrip_clean_ocr_text (t : List Char) :
    pyStrip (clean_ocr_text t) = clean_ocr_text t := by
  rw [clean_ocr_text]
  apply pyStrip_joinNl
  intro l hl
  obtain ⟨line, _, hk⟩ := List.mem_filterMap.mp hl
  obtain ⟨h1, h2, h3, _⟩ := survivor_facts hk
  exact ⟨h1, h2, h3⟩

/-! ### Helper lemmas about the capture loop -/

theorem runCapture_no_stop (classify : List PageText → GptVerdict)
    (avail : Bool) (ocrOf : Nat → Except String (List Char)) :
    ∀ l : List Nat, (∀ p ∈ l, stopCheck classify avail ocrOf p = false) →
      runCapture classify avail ocrOf l = l
  | [], _ => rfl
  | p :: rest, h => by
    rw [runCapture, h p (List.mem_cons_self p rest)]
    simp only [Bool.false_eq_true, if_false]
    rw [runCapture_no_stop classify avail ocrOf rest
      (fun x hx => h x (List.mem_cons_of_mem p hx))]

theorem runCapture_first_stop (classify : List PageText → GptVerdict)
    (avail : Bool) (ocrOf : Nat → Except String (List Char)) :
    ∀ xs : List Nat, ∀ k : Nat, ∀ ys : List Nat,
      (∀ p ∈ xs, stopCheck classify avail ocrOf p = false) →
      stopCheck classify avail ocrOf k = true →
      runCapture classify avail ocrOf (xs ++ k :: ys) = xs ++ [k]
  | [], k, ys, _, hk => by rw [List.nil_append, runCapture, hk]; simp
  | x :: xs, k, ys, h, hk => by
    rw [List.cons_append, runCapture, h x (List.mem_cons_self x xs)]
    simp only [Bool.false_eq_true, if_false]
    rw [runCapture_first_stop classify avail ocrOf xs k ys
      (fun p hp => h p (List.mem_cons_of_mem x hp)) hk]
    rfl

theorem range'_split_at {k max_pages : Nat} (h1 : 1 ≤ k) (h2 : k ≤ max_pages) :
    List.range' 1 max_pages =
      List.range' 1 (k - 1) ++ k :: List.range' (k + 1) (max_pages - k) := by
  have e1 : List.range' 1 (k - 1) ++ List.range' (1 + 1 * (k - 1)) (max_pages - (k - 1)) =
      List.range' 1 ((max_pages - (k - 1)) + (k - 1)) := List.range'_append 1 (k - 1) (max_pages - (k - 1)) 1
  have hk1 : 1 + 1 * (k - 1) = k := by omega
  have hm : (max_pages - (k - 1)) + (k - 1) = max_pages := by omega
  have hmk : max_pages - (k - 1) = (max_pages - k) + 1 := by omega
  rw [hk1, hm, hmk] at e1
  rw [← e1, List.range'_succ]

/-! ### Claim theorems -/

/-- C1 counterexample: for classification `fiction` with exactly one
content page `[4]` (sorted ascending), the code selects no page, while
the claim requires the selected page to be 4. -/
theorem c1_counterexample :
    computeTargetPage "fiction" [4] = none ∧
      computeTargetPage "fiction" [4] ≠ some 4 := by
  decide

/-- C1 (amended): for every verdict with `content_pages` sorted
ascending, the selection rule of the classifier step yields: non-fiction
with non-empty content pages selects the first element; fiction with at
least 2 content pages selects the second element; fiction with exactly 1
content page selects nothing; every other case selects nothing. -/
theorem c1_selection_rule (classification : String) (content_pages : List Int)
    (hsorted : List.Sorted (· ≤ ·) content_pages) :
    (classification = "non-fiction" → content_pages ≠ [] →
      computeTargetPage classification content_pages = content_pages[0]?) ∧
    (classification = "fiction" → 2 ≤ content_pages.length →
      computeTargetPage classification content_pages = content_pages[1]?) ∧
    (classification = "fiction" → content_pages.length = 1 →
      computeTargetPage classification content_pages = none) ∧
    ((¬classification = "fiction" ∧ ¬classification = "non-fiction") ∨
        content_pages = [] →
      computeTargetPage classification content_pages = none) := by
  refine ⟨fun hc hne => ?_, fun hc hlen => ?_, fun hc hlen => ?_, fun hother => ?_⟩
  · subst hc
    have h1 : ¬(("non-fiction" : String) = "fiction" ∧ 2 ≤ content_pages.length) := by
      simp
    have h2 : ("non-fiction" : String) = "non-fiction" ∧ 1 ≤ content_pages.length :=
      ⟨rfl, List.length_pos.mpr hne⟩
    rw [computeTargetPage, if_neg h1, if_pos h2]
  · subst hc
    rw [computeTargetPage, if_pos ⟨rfl, hlen⟩]
  · subst hc
    have h1 : ¬(("fiction" : String) = "fiction" ∧ 2 ≤ content_pages.length) := by
      simp [hlen]
    have h2 : ¬(("fiction" : String) = "non-fiction" ∧ 1 ≤ content_pages.length) := by
      simp
    rw [computeTargetPage, if_neg h1, if_neg h2]
  · rcases hother with ⟨hf, hn⟩ | hnil
    · rw [computeTargetPage, if_neg (by simp [hf]), if_neg (by simp [hn])]
    · subst hnil
      rw [computeTargetPage]
      simp

/-- C1 witness: the amended rule evaluated at sorted inputs `[2, 7]`. -/
theorem c1_selection_rule_witness :
    computeTargetPage "non-fiction" [2, 7] = some 2 ∧
      computeTargetPage "fiction" [2, 7] = some 7 := by
  have ha := c1_selection_rule "non-fiction" [2, 7] (by decide)
  have hb := c1_selection_rule "fiction" [2, 7] (by decide)
  exact ⟨by rw [ha.1 rfl (by decide)]; decide, by rw [hb.2.1 rfl (by decide)]; decide⟩

/-- C2 counterexample: with a stub classifier returning verdict
`non-fiction, content_pages = [0]`, the target page at the page-3
checkpoint is 0, which is ≤ 3, yet the session still captures page 4:
the Python truthiness test `if target_page` skips the stop for target 0. -/
theorem c2_counterexample :
    computeTargetPage
        (zeroTargetClassify (checkpointContents true zeroOcr 3)).classification
        (zeroTargetClassify (checkpointContents true zeroOcr 3)).content_pages =
      some 0 ∧
    ((0 : Int) ≤ (3 : Int)) ∧
    capturedPages zeroTargetClassify true zeroOcr 4 = [1, 2, 3, 4] ∧
    4 ∈ capturedPages zeroTargetClassify true zeroOcr 4 := by
  decide

/-- C2 (amended): the early-stop check runs only at checkpoints
(`page_number % 3 == 0`, `page_number ≥ 3`); if the first firing
checkpoint is `k`, the captured pages are exactly `1 .. k` (no page
beyond `k` is ever requested); if no checkpoint fires, capture continues
up to `max_pages`; and a checkpoint fires exactly when the classifier
verdict on the sorted OCR results so far yields a target page that is
nonzero and ≤ the highest page captured so far. -/
theorem c2_early_stop_behavior (classify : List PageText → GptVerdict)
    (avail : Bool) (ocrOf : Nat → Except String (List Char)) (max_pages : Nat) :
    (∀ k, 1 ≤ k → k ≤ max_pages →
      (∀ j ∈ List.range' 1 (k - 1), stopCheck classify avail ocrOf j = false) →
      stopCheck classify avail ocrOf k = true →
      capturedPages classify avail ocrOf max_pages = List.range' 1 k ∧
        ∀ m ∈ capturedPages classify avail ocrOf max_pages, m ≤ k) ∧
    ((∀ j ∈ List.range' 1 max_pages, stopCheck classify avail ocrOf j = false) →
      capturedPages classify avail ocrOf max_pages = List.range' 1 max_pages) ∧
    (∀ k, stopCheck classify avail ocrOf k = true →
      3 ≤ k ∧ k % 3 = 0 ∧
      ∃ tp : Int,
        computeTargetPage
            (classify (checkpointContents avail ocrOf k)).classification
            (classify (checkpointContents avail ocrOf k)).content_pages = some tp ∧
          tp ≠ 0 ∧ tp ≤ (k : Int)) := by
  refine ⟨fun k hk1 hkmax hprev hk => ?_, fun hnone => ?_, fun k hk => ?_⟩
  · have hsplit := range'_split_at hk1 hkmax
    have hrun : runCapture classify avail ocrOf
        (List.range' 1 (k - 1) ++ k :: List.range' (k + 1) (max_pages - k)) =
        List.range' 1 (k - 1) ++ [k] :=
      runCapture_first_stop classify avail ocrOf _ k _ hprev hk
    have hjoin : List.range' 1 (k - 1) ++ [k] = List.range' 1 k := by
      have e1 := List.range'_append 1 (k - 1) 1 1
      have hk1' : 1 + 1 * (k - 1) = k := by omega
      have hs : 1 + (k - 1) = k := by omega
      rw [hk1'] at e1
      rw [show List.range' k 1 = [k] from rfl] at e1
      rw [e1, hs]
    have hcap : capturedPages classify avail ocrOf max_pages = List.range' 1 k := by
      rw [capturedPages, hsplit, hrun, hjoin]
    refine ⟨hcap, fun m hm => ?_⟩
    rw [hcap] at hm
    have := List.mem_range'_1.mp hm
    omega
  · rw [capturedPages, runCapture_no_stop classify avail ocrOf _ hnone]
  · by_cases h1 : 3 ≤ k ∧ k % 3 = 0
    · refine ⟨h1.1, h1.2, ?_⟩
      simp only [stopCheck, if_pos h1] at hk
      by_cases h2 : 3 ≤ (checkpointContents avail ocrOf k).length
      · rw [if_pos h2] at hk
        cases hm : computeTargetPage
            (classify (checkpointContents avail ocrOf k)).classification
            (classify (checkpointContents avail ocrOf k)).content_pages with
        | none => rw [hm] at hk; exact absurd hk (by simp)
        | some tp =>
          rw [hm] at hk
          exact ⟨tp, rfl, of_decide_eq_true hk⟩
      · rw [if_neg h2] at hk
        exact absurd hk (by simp)
    · rw [stopCheck, if_neg h1] at hk
      exact absurd hk (by simp)

/-- C2 witness: with a stub classifier stopping at the page-3 checkpoint
(fiction, second content page 2 ≤ 3), a 10-page session captures exactly
pages 1, 2, 3. -/
theorem c2_early_stop_behavior_witness :
    capturedPages secondPageClassify true zeroOcr 10 = List.range' 1 3 :=
  ((c2_early_stop_behavior secondPageClassify true zeroOcr 10).1 3 (by decide)
    (by decide) (by decide) (by decide)).1

/-- C3: the OCR cleaner equals the claim-side per-line description
(lines processed in order, dropped on the first matching rule, survivors
rejoined with newlines, outer whitespace trimmed), and empty input
yields empty output. -/
theorem c3_cleaner_rules (t : List Char) :
    clean_ocr_text t = cleanSpec t ∧ clean_ocr_text [] = [] := by
  refine ⟨?_, rfl⟩
  rw [cleanSpec,
    List.filterMap_congr (fun a _ => keepLineSpec_eq_src a),
    ← clean_ocr_text, pyStrip_clean_ocr_text]

/-- C4 evaluation at the failing input: on the gapped list (pages 1, 3, 4;
page 2 failed) with final verdict naming page 3, the session returns
`selected_page_number = 3` but the content of the PageText stored at
position 2, whose `page_number` is 4 — not the text of the PageText
whose `page_number` is 3. -/
theorem c4_positional_misattribution :
    (finalizeSession 3 (gapContents.map Except.ok) gapClassify).gpt4_analysis.map
        GptAnalysis.selected_page_number = some (some 3) ∧
    (finalizeSession 3 (gapContents.map Except.ok) gapClassify).gpt4_analysis.map
        GptAnalysis.selected_page_content = some (some "fourth page words".toList) ∧
    (gapContents.find? (fun p => p.page_number == 3)).map PageText.text =
      some "third page words".toList ∧
    "fourth page words".toList ≠ "third page words".toList := by
  decide

/-- C5: the OCR worker returns a PageText with empty cleaned text when
the OCR engine fails and when the engine is unavailable, keeping the
page number, and the session finalization always succeeds regardless of
per-task failures. -/
theorem c5_ocr_failure_contained (p : Nat) (e : String)
    (o : Except String (List Char)) (actual : Nat)
    (results : List (Except String PageText))
    (classify : List PageText → GptVerdict) :
    (extract_text_from_image_async p true (Except.error e)).text = [] ∧
    (extract_text_from_image_async p true (Except.error e)).page_number = p ∧
    (extract_text_from_image_async p false o).text = [] ∧
    (finalizeSession actual results classify).success = true :=
  ⟨rfl, rfl, rfl, rfl⟩

/-- C6: on request failure, malformed JSON, or any exception `e`, the
classifier boundary returns classification `unknown`, empty
content_pages, no selected page, and the error detail as reasoning. -/
theorem c6_error_verdict (e : String) :
    (analyze_book_with_gpt4 (Except.error e)).classification = "unknown" ∧
    (analyze_book_with_gpt4 (Except.error e)).content_pages = [] ∧
    (analyze_book_with_gpt4 (Except.error e)).selected_page = none ∧
    (analyze_book_with_gpt4 (Except.error e)).reasoning = "Error: " ++ e :=
  ⟨rfl, rfl, rfl, rfl⟩

/-- C7: the OCR cleaner is idempotent: a second pass drops no line and
changes no character. -/
theorem c7_cleaner_idempotent (t : List Char) :
    clean_ocr_text (clean_ocr_text t) = clean_ocr_text t := by
  by_cases hnil : (splitNl t).filterMap keepLineSrc = []
  · have h0 : clean_ocr_text t = [] := by rw [clean_ocr_text, hnil]; rfl
    rw [h0]
    rfl
  · have hall : ∀ l ∈ (splitNl t).filterMap keepLineSrc,
        keepLineSrc l = some l ∧ '\n' ∉ l := by
      intro l hl
      obtain ⟨line, hline, hk⟩ := List.mem_filterMap.mp hl
      exact ⟨keepLineSrc_kept_again hk,
        (survivor_facts hk).2.2.2 (nl_not_mem_splitNl t line hline)⟩
    have hstep : splitNl (clean_ocr_text t) = (splitNl t).filterMap keepLineSrc := by
      rw [clean_ocr_text]
      exact splitNl_joinNl _ hnil (fun l hl => (hall l hl).2)
    conv_lhs => rw [clean_ocr_text]
    rw [hstep, filterMap_of_self _ _ (fun l hl => (hall l hl).1), clean_ocr_text]

/-- C8: the finalization always returns a `success: true` result; when no
page is selected the content field is null; and that result is distinct
from the total-failure result, which has `success: false`. -/
theorem c8_result_shape (actual : Nat) (results : List (Except String PageText))
    (classify : List PageText → GptVerdict) (e : String) :
    (finalizeSession actual results classify).success = true ∧
    (errorResult e).success = false ∧
    (selectedPageOf (finalContents results)
        (finalGpt results classify).selected_page = none →
      (finalizeSession actual results classify).gpt4_analysis.map
        GptAnalysis.selected_page_content = some none) ∧
    finalizeSession actual results classify ≠ errorResult e := by
  refine ⟨rfl, rfl, fun h => ?_, fun hcontra => ?_⟩
  · simp [finalizeSession, h]
  · have hs := congrArg SessionResult.success hcontra
    simp [finalizeSession, errorResult] at hs

/-- C8 witness: an empty session finalizes with success and null
content, while the failure result reports success false. -/
theorem c8_result_shape_witness :
    (finalizeSession 0 [] (fun _ => defaultGpt)).gpt4_analysis.map
        GptAnalysis.selected_page_content = some none ∧
    (finalizeSession 0 [] (fun _ => defaultGpt)).success = true ∧
    (errorResult "network down").success = false :=
  ⟨(c8_result_shape 0 [] (fun _ => defaultGpt) "network down").2.2.1 rfl,
   (c8_result_shape 0 [] (fun _ => defaultGpt) "network down").1,
   (c8_result_shape 0 [] (fun _ => defaultGpt) "network down").2.1⟩

/-- C9 counterexample: two distinct sessions (different preview URLs,
titles and authors) write page 1 to the same path, while the claim says
the paths never coincide. -/
theorem c9_counterexample :
    sessionScreenshotPath "https://books.google.com/books?id=first"
        "First Title" "First Author" 1 =
      sessionScreenshotPath "https://books.google.com/books?id=second"
        "Second Title" "Second Author" 1 ∧
    ("https://books.google.com/books?id=first" : String) ≠
      "https://books.google.com/books?id=second" :=
  ⟨rfl, by decide⟩

/-- C9 (amended): image filenames are not namespaced per session: every
session writes page `n` to the fixed path `temp/screenshots/page_<n>.png`,
independent of the session inputs, so concurrent sessions share paths. -/
theorem c9_fixed_shared_path (ua ta aa ub tb ab : String) (n : Nat) :
    sessionScreenshotPath ua ta aa n = sessionScreenshotPath ub tb ab n ∧
    sessionScreenshotPath ua ta aa n =
      "temp/screenshots" ++ "/page_" ++ toString n ++ ".png" :=
  ⟨rfl, rfl⟩

/-- C10: every field absent from the parsed JSON object is replaced by
its default — classification `unknown`, content_pages `[]`,
selected_page null, reasoning `""` — rather than raising or returning a
partial record. -/
theorem c10_parsed_defaults (r : JsonVerdict) :
    (r.classification = none →
      (analyze_book_with_gpt4 (Except.ok r)).classification = "unknown") ∧
    (r.content_pages = none →
      (analyze_book_with_gpt4 (Except.ok r)).content_pages = []) ∧
    (r.selected_page = none →
      (analyze_book_with_gpt4 (Except.ok r)).selected_page = none) ∧
    (r.reasoning = none →
      (analyze_book_with_gpt4 (Except.ok r)).reasoning = "") := by
  refine ⟨fun h => ?_, fun h => ?_, fun h => ?_, fun h => ?_⟩ <;>
    simp [analyze_book_with_gpt4, h]

/-- C10 witness: the fully-absent JSON object yields the fully-defaulted
verdict. -/
theorem c10_parsed_defaults_witness :
    (analyze_book_with_gpt4 (Except.ok ⟨none, none, none, none⟩)).classification =
        "unknown" ∧
    (analyze_book_with_gpt4 (Except.ok ⟨none, none, none, none⟩)).content_pages = [] ∧
    (analyze_book_with_gpt4 (Except.ok ⟨none, none, none, none⟩)).selected_page =
        none ∧
    (analyze_book_with_gpt4 (Except.ok ⟨none, none, none, none⟩)).reasoning = "" :=
  ⟨(c10_parsed_defaults _).1 rfl, (c10_parsed_defaults _).2.1 rfl,
   (c10_parsed_defaults _).2.2.1 rfl, (c10_parsed_defaults _).2.2.2 rfl⟩
